import Mathlib

/-!
Shallow embedding of the goal-execution orchestration engine of the
intelligent-task-automation-agent repository (src/backend), together with
theorems settling the specification claims.

Conventions of the embedding:
* Python dataclasses / pydantic models become Lean structures.
* Wall-clock timestamps and measured elapsed times are not observable in a
  pure model; `execution_time` is kept as a rational field and set to `0`
  where the source computes `time.time() - start_time` (no claim depends on
  a nonzero measured time; the orchestrator's escalation branches set the
  literal `0.0`, which is modelled exactly).
* The LLM call inside `HumanInterfaceAgent._has_multiple_approaches` is an
  external oracle, modelled as a boolean parameter `llm`; the source checks
  the destructive and ambiguous keyword lists before that call, so those
  branches are deterministic.
* Tool capabilities are black-box functions that may raise, modelled as
  `P → Except String ToolOutcome`.
* The executor's per-attempt tool outcome (`_execute_tool_operation`) is
  abstracted as an oracle `run : Nat → ToolOutcome` indexed by a global
  attempt counter.
* Python truthiness is modelled faithfully: an empty string, empty list or
  empty dict is falsy (`if pattern_type:`, `if request.options:`,
  `if not task.tool:`, `if not task.dependencies:`).
-/

namespace TaskAutomation

/-- src/backend/models.py `TaskStatus`. -/
inductive TaskStatus where
  | pending
  | inProgress
  | completed
  | failed
  | skipped
  | waitingForHuman
deriving DecidableEq, Repr

/-- src/backend/models.py `TaskPriority`. -/
inductive TaskPriority where
  | low
  | medium
  | high
  | critical
deriving DecidableEq, Repr

/-- Normalized outcome dictionary returned by a tool operation
(`{"success": bool, ...}` in the source). The optional `message`,
`content` and `error` entries are the keys the executor reads. -/
structure ToolOutcome where
  success : Bool
  message : Option String := none
  content : Option String := none
  error : Option String := none
deriving DecidableEq, Repr

/-- src/backend/models.py `Task` (timestamps omitted: they are wall-clock
side information never read by the engine's control flow). -/
structure Task where
  id : String
  description : String
  status : TaskStatus := .pending
  priority : TaskPriority := .medium
  dependencies : List String := []
  tool : Option String := none
  tool_params : List (String × String) := []
  result : Option ToolOutcome := none
  error : Option String := none
  retry_count : Nat := 0
  max_retries : Nat := 3
deriving DecidableEq, Repr

/-- src/backend/models.py `ExecutionResult`. `metadata` holds the raw tool
outcome dictionary when the source passes one (`metadata=result`). -/
structure ExecutionResult where
  task_id : String
  success : Bool
  output : Option String := none
  error : Option String := none
  execution_time : ℚ
  metadata : Option ToolOutcome := none
deriving DecidableEq, Repr

/-- The goal `result` dictionary written by `execute_goal` step 6:
`{"success": True, "tasks_completed": n}` or
`{"success": False, "tasks_failed": n}`. -/
inductive GoalOutcome where
  | success (tasks_completed : Nat)
  | failure (tasks_failed : Nat)
deriving DecidableEq, Repr

/-- src/backend/models.py `Goal`. -/
structure Goal where
  id : String
  description : String
  status : TaskStatus := .pending
  tasks : List Task := []
  result : Option GoalOutcome := none
deriving DecidableEq, Repr

/-- src/backend/models.py `ExecutionPlan`. -/
structure ExecutionPlan where
  goal_id : String
  tasks : List Task
  parallel_groups : List (List String) := []
deriving DecidableEq, Repr

/-- A human response value (`Any` in the source). Python booleans are
integers, so a boolean response is covered by `intVal`. -/
inductive HumanResponse where
  | intVal (i : Int)
  | strVal (s : String)
  | other
deriving DecidableEq, Repr

/-- src/backend/models.py `HumanInputRequest`; `id` (a uuid in the source)
is modelled as a counter value. -/
structure HumanInputRequest where
  id : Nat
  goal_id : String
  task_id : Option String := none
  question : String
  options : Option (List String) := none
  resolved : Bool := false
  response : Option HumanResponse := none
deriving DecidableEq, Repr

/-- src/backend/models.py `GoalSession` (adaptation and reasoning records
carry no claim-relevant structure and are omitted). -/
structure GoalSession where
  id : String
  goal : Goal
  execution_plan : ExecutionPlan
  results : List ExecutionResult := []
  human_inputs : List HumanInputRequest := []
deriving DecidableEq, Repr

/-! ### Keyword helpers (Python `keyword in description_lower`) -/

/-- Python `s.lower()`, modelled at the character-list level (the same
character map as `String.toLower`, whose positional implementation does
not reduce in the kernel). -/
def lowerChars (s : String) : List Char :=
  s.toList.map Char.toLower

/-- Python `sub in s` on strings: substring containment (`s` already
lowered to its character list). -/
def strContains (s : List Char) (sub : String) : Bool :=
  decide (List.IsInfix sub.toList s)

/-- Keyword list of `HumanInterfaceAgent._is_destructive_operation`. -/
def destructive_keywords : List String :=
  ["delete", "remove", "drop", "destroy", "clear", "uninstall", "format",
   "wipe", "truncate"]

/-- src/backend/agents/human_interface_agent.py
`HumanInterfaceAgent._is_destructive_operation`. -/
def isDestructive (t : Task) : Bool :=
  destructive_keywords.any (fun kw => strContains (lowerChars t.description) kw)

/-- Indicator list of `HumanInterfaceAgent._is_ambiguous`. -/
def ambiguous_indicators : List String :=
  ["maybe", "perhaps", "could", "might", "possibly", "not sure", "unclear",
   "vague"]

/-- src/backend/agents/human_interface_agent.py
`HumanInterfaceAgent._is_ambiguous`. -/
def isAmbiguous (t : Task) : Bool :=
  ambiguous_indicators.any (fun kw => strContains (lowerChars t.description) kw)

/-- src/backend/agents/human_interface_agent.py
`HumanInterfaceAgent.should_escalate`, at the orchestrator's call site
`should_escalate(task)`: `context` is `None`, so the
`requires_confirmation` check is false; the LLM-backed
`_has_multiple_approaches` is the oracle `llm`, consulted only after the
two keyword checks, exactly as the source's early returns. -/
def shouldEscalate (llm : Bool) (t : Task) : Bool :=
  isDestructive t || isAmbiguous t || llm

/-! ### Human interface: request creation and response processing -/

/-- Source `HumanInterfaceAgent._generate_question` (task branch; the orchestrator
always passes a task and no options). -/
def generateQuestion (goal : Goal) (t : Option Task) (reason : String) : String :=
  match t with
  | some task => "Task: " ++ task.description ++ "\n\n" ++ reason ++ "\n\n" ++
      "Please provide your input:"
  | none => "Goal: " ++ goal.description ++ "\n\n" ++ reason ++ "\n\n" ++
      "Please provide your input:"

/-- src/backend/agents/human_interface_agent.py
`HumanInterfaceAgent.create_input_request` (with `options=None`,
`context=None`, as at the orchestrator call site). -/
def create_input_request (reqId : Nat) (goal : Goal) (t : Option Task)
    (reason : String) : HumanInputRequest :=
  { id := reqId
    goal_id := goal.id
    task_id := t.map (·.id)
    question := generateQuestion goal t reason
    options := none
    resolved := false
    response := none }

/-- The dictionary returned by `process_human_response`. -/
structure ProcessedResponse where
  success : Bool
  selected_option : Option String := none
  index : Option Int := none
  error : Option String := none
  response : Option HumanResponse := none
deriving DecidableEq, Repr

/-- src/backend/agents/human_interface_agent.py
`HumanInterfaceAgent.process_human_response`. The request is marked
resolved and the raw response stored before any validation. Python
truthiness: `if request.options:` is false for `None` and for an empty
list, so an empty options list skips validation entirely. -/
def process_human_response (req : HumanInputRequest) (resp : HumanResponse) :
    HumanInputRequest × ProcessedResponse :=
  let req' := { req with resolved := true, response := some resp }
  match req.options with
  | some (o :: os) =>
    let opts := o :: os
    match resp with
    | .intVal i =>
      if 1 ≤ i ∧ i ≤ opts.length then
        (req', { success := true, selected_option := opts.get? (i - 1).toNat,
                 index := some (i - 1) })
      else
        (req', { success := false,
                 error := some "Invalid response. Please select from the provided options." })
    | .strVal s =>
      if opts.contains s then
        (req', { success := true, selected_option := some s })
      else
        (req', { success := false,
                 error := some "Invalid response. Please select from the provided options." })
    | .other =>
      (req', { success := false,
               error := some "Invalid response. Please select from the provided options." })
  | _ => (req', { success := true, response := some resp })

/-- Written from the claim's words (spec §4.3): a response against a fixed
options list is valid iff it is a 1-based integer index into the options or
a string equal to one of the options. Compared against
`process_human_response`. -/
def validSelection (opts : List String) : HumanResponse → Bool
  | .intVal i => decide (1 ≤ i) && decide (i ≤ opts.length)
  | .strVal s => opts.contains s
  | .other => false

/-! ### Tool registry (src/backend/core/tool_registry.py) -/

/-- A registered tool: its callable operations by name (`hasattr`/`getattr`
dispatch in the source). A capability may raise, modelled by `Except`. -/
def ToolCap (P : Type) := List (String × (P → Except String ToolOutcome))

/-- Source `ToolRegistry.get_tool`: `self._tools.get(tool_name)`. -/
def getTool {P : Type} (reg : List (String × ToolCap P)) (name : String) :
    Option (ToolCap P) :=
  (reg.find? (fun kv => kv.1 == name)).map (·.2)

/-- Operation lookup on a tool: `hasattr(tool, operation)` / `getattr`. -/
def getOp {P : Type} (tool : ToolCap P) (operation : String) :
    Option (P → Except String ToolOutcome) :=
  (tool.find? (fun kv => kv.1 == operation)).map (·.2)

/-- src/backend/core/tool_registry.py `ToolRegistry.execute_tool`. All
three failure modes return a `{success: false, error: ...}` dictionary; the
function is total (the source catches the capability's exception), which is
the model of "never raises". -/
def execute_tool {P : Type} (reg : List (String × ToolCap P))
    (tool_name operation : String) (params : P) : ToolOutcome :=
  match getTool reg tool_name with
  | none => { success := false, error := some ("Tool not found: " ++ tool_name) }
  | some tool =>
    match getOp tool operation with
    | none =>
      { success := false
        error := some ("Operation '" ++ operation ++ "' not found on tool '" ++
          tool_name ++ "'") }
    | some method =>
      match method params with
      | .ok r => r
      | .error e =>
        { success := false
          error := some ("Error executing " ++ tool_name ++ "." ++ operation ++
            ": " ++ e) }

/-! ### Goal status update (orchestrator `execute_goal`, step 6) -/

/-- src/backend/core/orchestrator.py `execute_goal` lines 97-111: the
aggregate goal status and result written after all tasks are processed;
`numResults` is `len(execution_results)`. -/
def goalFinalStatus (tasks : List Task) (numResults : Nat) :
    TaskStatus × Option GoalOutcome :=
  if tasks.all (fun t => t.status == .completed) then
    (.completed, some (.success numResults))
  else if tasks.all (fun t => t.status == .failed) then
    (.failed, some (.failure numResults))
  else
    (.inProgress, none)

/-! ### Dependency eligibility (orchestrator `_can_execute_task`) -/

/-- src/backend/core/orchestrator.py `TaskOrchestrator._can_execute_task`.
`if not task.dependencies: return True` (empty list is falsy). -/
def canExecuteTask (t : Task) (executed : List String) : Bool :=
  if t.dependencies.isEmpty then true
  else t.dependencies.all (fun dep => executed.contains dep)

/-! ### Memory manager: sessions (src/backend/core/memory_manager.py) -/

/-- The on-disk JSON record written by `MemoryManager.save_session`
(`session_data`). The pydantic `dict()` / constructor round trip preserves
the goal (including every task's status) and the plan; the results and
human inputs are serialized as well. -/
structure StoredSession where
  id : String
  goal : Goal
  execution_plan : ExecutionPlan
  results : List ExecutionResult
  human_inputs : List HumanInputRequest
deriving DecidableEq, Repr

/-- The session directory, keyed by session id (one file per id,
overwritten on save). -/
def SessionStore := String → Option StoredSession

/-- src/backend/core/memory_manager.py `MemoryManager.save_session`:
writes `sessions_dir / f"{session.id}.json"`. -/
def saveSession (s : GoalSession) (store : SessionStore) : SessionStore :=
  fun k =>
    if k = s.id then
      some { id := s.id, goal := s.goal, execution_plan := s.execution_plan,
             results := s.results, human_inputs := s.human_inputs }
    else store k

/-- src/backend/core/memory_manager.py `MemoryManager.load_session`:
returns `None` when the file does not exist (and on any read error); when
present, reconstructs `GoalSession(id=..., goal=..., execution_plan=...,
started_at=..., completed_at=...)` — the stored `results`, `adaptations`,
`human_inputs` and `reasoning_results` are NOT passed to the constructor,
so the loaded session carries the model defaults (empty lists). -/
def loadSession (store : SessionStore) (session_id : String) :
    Option GoalSession :=
  match store session_id with
  | none => none
  | some d =>
    some { id := d.id, goal := d.goal, execution_plan := d.execution_plan,
           results := [], human_inputs := [] }

/-! ### Executor agent (src/backend/agents/executor_agent.py) -/

/-- Source `ExecutorAgent._infer_tool`: keyword-based tool inference over the
lowercased description. -/
def inferTool (description : String) : Option String :=
  if ["file", "create file", "read file", "write", "directory"].any
      (fun kw => strContains (lowerChars description) kw) then some "file_operations"
  else if ["git", "commit", "branch", "repository"].any
      (fun kw => strContains (lowerChars description) kw) then some "git_operations"
  else if ["download", "fetch", "request", "http", "url"].any
      (fun kw => strContains (lowerChars description) kw) then some "web_operations"
  else if ["run", "execute", "command", "install", "python", "npm"].any
      (fun kw => strContains (lowerChars description) kw) then some "command_executor"
  else none

/-- Source `execute_task` lines 46-48: `if not task.tool: task.tool =
self._infer_tool(...)`. Python truthiness: `None` and the empty string are
both falsy. -/
def toolOf (t : Task) : Option String :=
  match t.tool with
  | some s => if s = "" then inferTool t.description else some s
  | none => inferTool t.description

/-- The observable outcome of one `ExecutorAgent.execute_task` call: the
mutated task, the terminal `ExecutionResult`, and the number of
tool-invocation attempts performed (calls of
`_execute_tool_operation`). -/
structure ExecOut where
  task : Task
  result : ExecutionResult
  invocations : Nat
deriving DecidableEq, Repr

/-- src/backend/agents/executor_agent.py `ExecutorAgent.execute_task`.
`run k` is the outcome dictionary of the `k`-th tool-invocation attempt
(abstracting `_execute_tool_operation`, including the registry call). On
failure with `retry_count < max_retries` the source increments
`retry_count`, sleeps briefly, and recursively re-enters `execute_task` on
the same task — modelled by the recursive call on the updated task, with
termination measured by the remaining retry budget. -/
def executeTask (run : Nat → ToolOutcome) (k : Nat) (t0 : Task) : ExecOut :=
  let t := { t0 with status := TaskStatus.inProgress, tool := toolOf t0 }
  match toolOf t0 with
  | none =>
    { task := t
      result := { task_id := t.id, success := false,
                  error := some "No tool specified and could not infer tool from task description",
                  execution_time := 0 }
      invocations := 0 }
  | some _ =>
    let r := run k
    if r.success then
      { task := { t with status := TaskStatus.completed, result := some r }
        result := { task_id := t.id, success := true,
                    output := some ((r.message <|> r.content).getD "Task completed"),
                    execution_time := 0, metadata := some r }
        invocations := 1 }
    else if t0.retry_count < t0.max_retries then
      let out := executeTask run (k + 1) { t with retry_count := t0.retry_count + 1 }
      { out with invocations := out.invocations + 1 }
    else
      { task := { t with status := TaskStatus.failed, error := some (r.error.getD "Unknown error") }
        result := { task_id := t.id, success := false,
                    error := some (r.error.getD "Task execution failed"),
                    execution_time := 0, metadata := some r }
        invocations := 1 }
termination_by t0.max_retries - t0.retry_count
decreasing_by simp; omega

/-! ### Orchestrator: single-task execution with escalation checks -/

/-- The observable outcome of one
`TaskOrchestrator._execute_task_with_checks` call: the task, the
`ExecutionResult`, the `HumanInputRequest` appended to
`session.human_inputs` (if escalation fired), and the number of
tool-invocation attempts performed. -/
structure CheckedExecOut where
  task : Task
  result : ExecutionResult
  request : Option HumanInputRequest
  invocations : Nat
deriving DecidableEq, Repr

/-- The reason string the orchestrator passes to `create_input_request`. -/
def escalationReason : String := "This task requires human confirmation or input"

/-- src/backend/core/orchestrator.py
`TaskOrchestrator._execute_task_with_checks`. `hasCb` is whether
`self.human_input_callback` is configured, `cbResp` the callback's
response, `reqId` the fresh request id. When escalation fires with a
callback, the request is resolved inline via `process_human_response`
(options are `None` at this call site, so processing always succeeds and
the tool is invoked); with no callback the task is marked
`WAITING_FOR_HUMAN` and a zero-duration failed result is returned without
invoking the tool. -/
def executeTaskWithChecks (llm hasCb : Bool) (cbResp : HumanResponse)
    (run : Nat → ToolOutcome) (k : Nat) (goal : Goal) (reqId : Nat)
    (t : Task) : CheckedExecOut :=
  if shouldEscalate llm t then
    let req := create_input_request reqId goal (some t) escalationReason
    if hasCb then
      let pr := process_human_response req cbResp
      if pr.2.success then
        let out := executeTask run k t
        { task := out.task, result := out.result, request := some pr.1,
          invocations := out.invocations }
      else
        { task := { t with status := TaskStatus.failed, error := some "Human input required but not provided" }
          result := { task_id := t.id, success := false,
                      error := some "Human input required", execution_time := 0 }
          request := some pr.1
          invocations := 0 }
    else
      { task := { t with status := TaskStatus.waitingForHuman }
        result := { task_id := t.id, success := false,
                    error := some "Waiting for human input", execution_time := 0 }
        request := some req
        invocations := 0 }
  else
    let out := executeTask run k t
    { task := out.task, result := out.result, request := none,
      invocations := out.invocations }

/-! ### Orchestrator: plan execution (`_execute_plan`) -/

/-- Scheduler state threaded through `_execute_plan`: the `executed_tasks`
set (as a list), the accumulated `results`, the `session.human_inputs`
list, the fresh-request counter and the global tool-attempt counter.
Task-status mutations do not feed back into any dispatch decision
(`_can_execute_task` reads only `dependencies` and the executed set), so
they are not tracked in this state. -/
structure PlanState where
  executed : List String := []
  results : List ExecutionResult := []
  requests : List HumanInputRequest := []
  nextId : Nat := 0
  attempt : Nat := 0
deriving Repr

/-- One dispatch: run `_execute_task_with_checks`, append the result,
record any created request, and add the dispatched id to the executed set
(`executed_tasks.add(task_id)` — the loop variable, which for the group
pass is the group entry). -/
def dispatchTask (llm hasCb : Bool) (cbResp : HumanResponse)
    (run : Nat → ToolOutcome) (goal : Goal) (addedId : String) (t : Task)
    (st : PlanState) : PlanState :=
  let out := executeTaskWithChecks llm hasCb cbResp run st.attempt goal st.nextId t
  { executed := st.executed ++ [addedId]
    results := st.results ++ [out.result]
    requests := st.requests ++ out.request.toList
    nextId := st.nextId + (if out.request.isSome then 1 else 0)
    attempt := st.attempt + out.invocations }

/-- Source `task_map = \x7btask.id: task for task in execution_plan.tasks\x7d`: a later
task with the same id overwrites an earlier one, so lookup finds the last
matching task. -/
def taskMap (plan : ExecutionPlan) (task_id : String) : Option Task :=
  (plan.tasks.filter (fun t => t.id == task_id)).getLast?

/-- One iteration of the parallel-group pass (`for task_id in group`):
lines 133-139. Note the source checks membership in `task_map` and
`_can_execute_task`, but NOT membership in `executed_tasks`. -/
def groupEntryStep (llm hasCb : Bool) (cbResp : HumanResponse)
    (run : Nat → ToolOutcome) (goal : Goal) (plan : ExecutionPlan)
    (st : PlanState) (task_id : String) : PlanState :=
  match taskMap plan task_id with
  | none => st
  | some t =>
    if canExecuteTask t st.executed then
      dispatchTask llm hasCb cbResp run goal task_id t st
    else st

/-- One iteration of the sequential pass (`for task in
execution_plan.tasks`): lines 142-147, guarded by `task.id not in
executed_tasks` and `_can_execute_task`. -/
def seqTaskStep (llm hasCb : Bool) (cbResp : HumanResponse)
    (run : Nat → ToolOutcome) (goal : Goal) (st : PlanState) (t : Task) :
    PlanState :=
  if st.executed.contains t.id then st
  else if canExecuteTask t st.executed then
    dispatchTask llm hasCb cbResp run goal t.id t st
  else st

/-- src/backend/core/orchestrator.py `TaskOrchestrator._execute_plan`:
the parallel groups are processed first, group by group, then the plan's
full task sequence is swept for anything not yet executed. -/
def executePlanModel (llm hasCb : Bool) (cbResp : HumanResponse)
    (run : Nat → ToolOutcome) (goal : Goal) (plan : ExecutionPlan) :
    PlanState :=
  let st1 := plan.parallel_groups.foldl
    (fun st group => group.foldl (groupEntryStep llm hasCb cbResp run goal plan) st)
    {}
  plan.tasks.foldl (seqTaskStep llm hasCb cbResp run goal) st1

/-- src/backend/agents/planner_agent.py `_create_plan_from_response`,
parallel-group validation: each group is filtered to ids present in the
task map, and groups left empty are dropped. -/
def validParallelGroups (tasks : List Task) (groups : List (List String)) :
    List (List String) :=
  (groups.map (fun g => g.filter (fun tid => tasks.any (fun t => t.id == tid)))).filter
    (fun g => !g.isEmpty)

/-! ### Pattern memory (src/backend/core/memory_manager.py) -/

/-- src/backend/models.py `LearnedPattern` (timestamps omitted; context
values modelled as strings — only equality on them is ever used). -/
structure LearnedPattern where
  id : String
  pattern_type : String
  context : List (String × String) := []
  outcome : String := ""
  confidence : ℚ := 0
  usage_count : Nat := 0
deriving DecidableEq, Repr

/-- Python `pattern.context[key]` via dict lookup (keys unique). -/
def ctxGet (ctx : List (String × String)) (k : String) : Option String :=
  (ctx.find? (fun kv => kv.1 == k)).map (·.2)

/-- Source `get_patterns` context filtering: `key in pattern.context and
pattern.context[key] == value` for every filter entry. -/
def matchesContext (p : LearnedPattern) (cf : List (String × String)) : Bool :=
  cf.all (fun kv => ctxGet p.context kv.1 == some kv.2)

/-- The comparison realized by
`patterns.sort(key=lambda p: (p.confidence, p.usage_count), reverse=True)`:
`a` may precede `b` iff `a`'s key is lexicographically ≥ `b`'s. Python's
sort is stable, and with `reverse=True` elements with equal keys keep
their original relative order. -/
def descLE (a b : LearnedPattern) : Bool :=
  decide (b.confidence < a.confidence ∨
    (b.confidence = a.confidence ∧ b.usage_count ≤ a.usage_count))

/-- Python truthiness of the `pattern_type` argument (`if pattern_type:`):
`None` and `""` are falsy. -/
def typeFalsy : Option String → Bool
  | some t => t == ""
  | none => true

/-- Python truthiness of the `context_filter` argument
(`if context_filter:`): `None` and `{}` are falsy. -/
def ctxFalsy : Option (List (String × String)) → Bool
  | some cf => cf.isEmpty
  | none => true

/-- src/backend/core/memory_manager.py `MemoryManager.get_patterns`.
Returns the result list and the new backing store: when both filters are
falsy, `patterns` aliases `self._patterns` and `patterns.sort(...)`
mutates the store in place; otherwise the sort acts on a fresh filtered
list and the store is unchanged. The in-place Timsort is modelled by
`List.mergeSort` with `descLE`, both being stable sorts of the same
comparison. -/
def get_patterns (store : List LearnedPattern) (pattern_type : Option String)
    (context_filter : Option (List (String × String))) :
    List LearnedPattern × List LearnedPattern :=
  let afterType := if typeFalsy pattern_type then store
    else store.filter (fun p => p.pattern_type == pattern_type.getD "")
  let afterCtx := if ctxFalsy context_filter then afterType
    else afterType.filter (fun p => matchesContext p (context_filter.getD []))
  let sorted := afterCtx.mergeSort descLE
  (sorted, if typeFalsy pattern_type && ctxFalsy context_filter then sorted else store)

/-- Written from the claim's words: the patterns passing the two filters
("pattern_type equals the type filter (when given)"; "context contains
every key/value pair of the context filter (when given)"). -/
def specFilter (store : List LearnedPattern) (pattern_type : Option String)
    (context_filter : Option (List (String × String))) : List LearnedPattern :=
  store.filter (fun p =>
    (match pattern_type with
     | some t => p.pattern_type == t
     | none => true) &&
    (match context_filter with
     | some cf => matchesContext p cf
     | none => true))

/-- Written from the claim's words: stable insertion of `a` into a
descending-sorted list — `a` goes in front of the first element it may
precede, so among equal keys earlier elements stay first. -/
def specInsertDesc (a : LearnedPattern) : List LearnedPattern → List LearnedPattern
  | [] => [a]
  | b :: l => if descLE a b then a :: b :: l else b :: specInsertDesc a l

/-- Written from the claim's words: stable descending insertion sort
("sorted descending by (confidence, usage_count) with ties in original
insertion order"). Compared against the source's sort. -/
def specSortDesc : List LearnedPattern → List LearnedPattern
  | [] => []
  | a :: l => specInsertDesc a (specSortDesc l)

/-! ### Request accounting for the escalation invariant (C9) -/

/-- The number of open (unresolved) `HumanInputRequest`s recorded for a
given task id in a scheduler state. -/
def reqCount (st : PlanState) (tid : String) : Nat :=
  st.requests.countP (fun r => r.task_id == some tid && !r.resolved)

/-- Invariant carried through the parallel-group pass: every task id has
at most one recorded open request, and an id with one is already in the
executed set and does not occur among the remaining group entries. -/
def GroupInv (st : PlanState) (rem : List String) : Prop :=
  ∀ tid, reqCount st tid ≤ 1 ∧
    (1 ≤ reqCount st tid → tid ∈ st.executed ∧ tid ∉ rem)

/-- Invariant carried through the sequential pass: every task id has at
most one recorded open request, and an id with one is in the executed
set. -/
def SeqInv (st : PlanState) : Prop :=
  ∀ tid, reqCount st tid ≤ 1 ∧ (1 ≤ reqCount st tid → tid ∈ st.executed)

/-! ### Concrete fixtures used by witnesses and counterexamples -/

/-- Concrete tool registry used by the C7 witness: one tool with one
operation that raises. -/
def demoRegistry : List (String × ToolCap Unit) :=
  [("files", [("read", fun _ => Except.error "boom")])]

/-- Concrete session with one execution result, used to refute C2 as
stated. -/
def c2Session : GoalSession :=
  { id := "s1"
    goal := { id := "g1", description := "demo",
              tasks := [{ id := "a", description := "t", status := TaskStatus.completed }] }
    execution_plan := { goal_id := "g1", tasks := [] }
    results := [{ task_id := "a", success := true, execution_time := 0 }] }

/-- Concrete request carrying an empty options list, used to refute C6 as
stated. -/
def c6EmptyOptsReq : HumanInputRequest :=
  { id := 0, goal_id := "g", question := "q", options := some [] }

/-- Concrete request with two options, used by the C6 witness. -/
def c6DemoReq : HumanInputRequest :=
  { id := 1, goal_id := "g", question := "q", options := some ["yes", "no"] }

/-- Concrete pattern used to refute C8 as stated. -/
def c8Pattern : LearnedPattern :=
  { id := "p1", pattern_type := "successful_approach", outcome := "ok" }

/-- Pattern with a tied key (`confidence = 0`, `usage_count = 0`),
inserted first. -/
def c8P1 : LearnedPattern :=
  { id := "p1", pattern_type := "a", outcome := "o", confidence := 0 }

/-- Pattern with the same key as `c8P1`, inserted second. -/
def c8P2 : LearnedPattern :=
  { id := "p2", pattern_type := "a", outcome := "o", confidence := 0 }

/-- Pattern with the highest confidence, inserted last. -/
def c8P3 : LearnedPattern :=
  { id := "p3", pattern_type := "a", outcome := "o", confidence := 1 }

/-- Destructive task used to refute C9 as stated. -/
def c9Task : Task :=
  { id := "x", description := "delete temp files" }

/-- Goal owning `c9Task`. -/
def c9Goal : Goal :=
  { id := "g", description := "cleanup", tasks := [c9Task] }

/-- A plan whose parallel groups mention the same task id twice — the
planner copies the LLM's `parallel_groups` after only filtering unknown
ids, so such a plan is reachable. -/
def c9Plan : ExecutionPlan :=
  { goal_id := "g", tasks := [c9Task], parallel_groups := [["x"], ["x"]] }

/-- A well-formed variant of `c9Plan` with the task in one group only,
used by the C9 witness. -/
def c9PlanOk : ExecutionPlan :=
  { goal_id := "g", tasks := [c9Task], parallel_groups := [["x"]] }

/-! ## Claim theorems -/

/-- C3. After all of a plan's tasks are processed by `execute_goal`,
the Goal's status is Completed if every task's status is Completed, else
Failed if every task's status is Failed, and otherwise InProgress (the
conditions read sequentially, as in the source's if/elif/else). -/
theorem C3_goal_status_aggregation (tasks : List Task) (n : Nat) :
    ((∀ t ∈ tasks, t.status = TaskStatus.completed) →
      (goalFinalStatus tasks n).1 = TaskStatus.completed) ∧
    (¬ (∀ t ∈ tasks, t.status = TaskStatus.completed) →
      (∀ t ∈ tasks, t.status = TaskStatus.failed) →
      (goalFinalStatus tasks n).1 = TaskStatus.failed) ∧
    (¬ (∀ t ∈ tasks, t.status = TaskStatus.completed) →
      ¬ (∀ t ∈ tasks, t.status = TaskStatus.failed) →
      (goalFinalStatus tasks n).1 = TaskStatus.inProgress) := by
  refine ⟨fun h => ?_, fun h1 h2 => ?_, fun h1 h2 => ?_⟩
  · have hA : (tasks.all fun t => t.status == TaskStatus.completed) = true := by
      simpa [List.all_eq_true, beq_iff_eq] using h
    simp [goalFinalStatus, hA]
  · have hA : (tasks.all fun t => t.status == TaskStatus.completed) = false := by
      rw [Bool.eq_false_iff]
      intro hA
      exact h1 (by simpa [List.all_eq_true, beq_iff_eq] using hA)
    have hB : (tasks.all fun t => t.status == TaskStatus.failed) = true := by
      simpa [List.all_eq_true, beq_iff_eq] using h2
    simp [goalFinalStatus, hA, hB]
  · have hA : (tasks.all fun t => t.status == TaskStatus.completed) = false := by
      rw [Bool.eq_false_iff]
      intro hA
      exact h1 (by simpa [List.all_eq_true, beq_iff_eq] using hA)
    have hB : (tasks.all fun t => t.status == TaskStatus.failed) = false := by
      rw [Bool.eq_false_iff]
      intro hB
      exact h2 (by simpa [List.all_eq_true, beq_iff_eq] using hB)
    simp [goalFinalStatus, hA, hB]

/-- Witness for C3 at a concrete mixed-status task list. -/
theorem C3_goal_status_aggregation_witness :
    (goalFinalStatus
      [{ id := "a", description := "d", status := TaskStatus.completed },
       { id := "b", description := "d", status := TaskStatus.failed }] 2).1 =
      TaskStatus.inProgress :=
  (C3_goal_status_aggregation _ 2).2.2 (by decide) (by decide)

/-- C4. `_can_execute_task` returns true for a task with no
dependencies, and for a task with a nonempty dependency list it returns
true iff every listed id is in the executed set. -/
theorem C4_can_execute (t : Task) (executed : List String) :
    (t.dependencies = [] → canExecuteTask t executed = true) ∧
    (t.dependencies ≠ [] →
      (canExecuteTask t executed = true ↔ ∀ d ∈ t.dependencies, d ∈ executed)) := by
  constructor
  · intro h; simp [canExecuteTask, h]
  · intro h
    simp [canExecuteTask, List.isEmpty_iff, h, List.all_eq_true,
      List.contains_iff_exists_mem_beq, beq_iff_eq]

/-- Witness for C4: a dependency-free task, and a task whose single
dependency is in the executed set. -/
theorem C4_can_execute_witness :
    canExecuteTask { id := "c", description := "d" } ["x"] = true ∧
    (canExecuteTask { id := "c", description := "d", dependencies := ["a"] }
        ["a"] = true ↔ ∀ d ∈ ["a"], d ∈ ["a"]) :=
  ⟨(C4_can_execute { id := "c", description := "d" } ["x"]).1 rfl,
   (C4_can_execute { id := "c", description := "d", dependencies := ["a"] }
     ["a"]).2 (by decide)⟩

/-- C10. A goal whose decomposition yields no tasks produces a plan
with zero tasks (the planner's group validation also drops every group),
`_execute_plan` returns no results, and `execute_goal`'s final status
update marks the goal Completed with a success result — even though no
task was ever executed. -/
theorem C10_empty_goal_completed (gs : List (List String)) (llm hasCb : Bool)
    (cbResp : HumanResponse) (run : Nat → ToolOutcome) (goal : Goal)
    (gid : String) :
    validParallelGroups [] gs = [] ∧
    (executePlanModel llm hasCb cbResp run goal
      { goal_id := gid, tasks := [],
        parallel_groups := validParallelGroups [] gs }).results = [] ∧
    goalFinalStatus [] 0 = (TaskStatus.completed, some (GoalOutcome.success 0)) := by
  have hg : validParallelGroups [] gs = [] := by
    simp [validParallelGroups]
  refine ⟨hg, ?_, rfl⟩
  simp [executePlanModel, hg]

/-- C7. `ToolRegistry.execute_tool` returns a `{success: false,
error: ...}` mapping when the tool is unregistered, when the tool lacks
the operation, and when the operation raises; it is a total function
(the model of "never raises") in all three cases. -/
theorem C7_execute_tool_errors {P : Type} (reg : List (String × ToolCap P))
    (tool_name operation : String) (params : P) :
    (getTool reg tool_name = none →
      (execute_tool reg tool_name operation params).success = false ∧
      (execute_tool reg tool_name operation params).error.isSome = true) ∧
    (∀ tool, getTool reg tool_name = some tool → getOp tool operation = none →
      (execute_tool reg tool_name operation params).success = false ∧
      (execute_tool reg tool_name operation params).error.isSome = true) ∧
    (∀ tool method e, getTool reg tool_name = some tool →
      getOp tool operation = some method → method params = Except.error e →
      (execute_tool reg tool_name operation params).success = false ∧
      (execute_tool reg tool_name operation params).error.isSome = true) := by
  refine ⟨fun h => ?_, fun tool h1 h2 => ?_, fun tool method e h1 h2 h3 => ?_⟩
  · simp [execute_tool, h]
  · simp [execute_tool, h1, h2]
  · simp [execute_tool, h1, h2, h3]

/-- Witness for C7: all three failure modes at concrete inputs. -/
theorem C7_execute_tool_errors_witness :
    ((execute_tool demoRegistry "missing" "read" ()).success = false ∧
      (execute_tool demoRegistry "missing" "read" ()).error.isSome = true) ∧
    ((execute_tool demoRegistry "files" "write" ()).success = false ∧
      (execute_tool demoRegistry "files" "write" ()).error.isSome = true) ∧
    ((execute_tool demoRegistry "files" "read" ()).success = false ∧
      (execute_tool demoRegistry "files" "read" ()).error.isSome = true) :=
  ⟨(C7_execute_tool_errors demoRegistry "missing" "read" ()).1 rfl,
   (C7_execute_tool_errors demoRegistry "files" "write" ()).2.1 _ rfl rfl,
   (C7_execute_tool_errors demoRegistry "files" "read" ()).2.2 _ _ "boom" rfl rfl rfl⟩

/-- C2 counterexample. The claim says the loaded session's number of
`ExecutionResult`s equals the original's; but `load_session` never passes
the stored `results` to the reconstructed `GoalSession`, so a saved
session with one result loads with zero. -/
theorem C2_roundtrip_counterexample :
    ¬ ((loadSession (saveSession c2Session (fun _ => none)) c2Session.id).map
        (fun s => s.results.length) = some c2Session.results.length) := by
  decide

/-- C2 (amended). Save-then-load returns a session with the same goal
id and the same task statuses, but an empty results list (so the result
count is preserved only for sessions with no results); loading an id with
no saved session returns `none` and, the function being total, never
raises. -/
theorem C2_roundtrip_amended (s : GoalSession) (store store2 : SessionStore)
    (sid : String) (hmiss : store2 sid = none) :
    (∃ s', loadSession (saveSession s store) s.id = some s' ∧
      s'.goal.id = s.goal.id ∧
      s'.goal.tasks.map (fun t => t.status) = s.goal.tasks.map (fun t => t.status) ∧
      s'.results = []) ∧
    loadSession store2 sid = none := by
  constructor
  · refine ⟨{ id := s.id, goal := s.goal, execution_plan := s.execution_plan, results := [], human_inputs := [] }, ?_, rfl, rfl, rfl⟩
    simp [loadSession, saveSession]
  · simp [loadSession, hmiss]

/-- Witness for C2 (amended) at a concrete session and an unknown id. -/
theorem C2_roundtrip_amended_witness :
    (∃ s', loadSession (saveSession c2Session (fun _ => none)) c2Session.id = some s' ∧
      s'.goal.id = c2Session.goal.id ∧
      s'.goal.tasks.map (fun t => t.status) =
        c2Session.goal.tasks.map (fun t => t.status) ∧
      s'.results = []) ∧
    loadSession (fun _ => none) "nope" = none :=
  C2_roundtrip_amended c2Session (fun _ => none) (fun _ => none) "nope" rfl

/-- C6 counterexample. For a request carrying a fixed (but empty)
options list, the claim demands failure for every response (no integer
can satisfy `1 ≤ i ≤ 0` and no string is in `[]`); but Python's
`if request.options:` treats an empty list as absent, so
`process_human_response` accepts any response. -/
theorem C6_resolve_response_counterexample :
    ¬ (((process_human_response c6EmptyOptsReq (HumanResponse.intVal 5)).2.success = true) ↔
        validSelection [] (HumanResponse.intVal 5) = true) := by
  decide

/-- C6 (amended). For a request carrying a nonempty options list:
`process_human_response` succeeds iff the response is an integer `i` with
`1 ≤ i ≤ len(options)` (selecting `options[i-1]`) or a string equal to
one of the options; any other response fails with the invalid-selection
error; and the request is marked resolved with the raw response stored,
valid or not. (A request with an empty options list is treated as
carrying no options and accepts any response.) -/
theorem C6_resolve_response_amended (req : HumanInputRequest) (o : String)
    (os : List String) (resp : HumanResponse)
    (hopts : req.options = some (o :: os)) :
    ((process_human_response req resp).2.success = validSelection (o :: os) resp) ∧
    (validSelection (o :: os) resp = false →
      (process_human_response req resp).2.error =
        some "Invalid response. Please select from the provided options.") ∧
    ((process_human_response req resp).1.resolved = true) ∧
    ((process_human_response req resp).1.response = some resp) ∧
    (∀ i, resp = HumanResponse.intVal i → validSelection (o :: os) resp = true →
      (process_human_response req resp).2.selected_option =
        (o :: os).get? (i - 1).toNat) ∧
    (∀ s, resp = HumanResponse.strVal s → validSelection (o :: os) resp = true →
      (process_human_response req resp).2.selected_option = some s) := by
  cases resp with
  | intVal i =>
    by_cases h : 1 ≤ i ∧ i ≤ (o :: os).length
    · obtain ⟨h1, h2⟩ := h
      have h2' : i ≤ (os.length : Int) + 1 := by simpa using h2
      have hts : (i - 1).toNat = i.toNat - 1 := by omega
      simp [process_human_response, hopts, validSelection, h1, h2, h2', hts]
    · have hv : validSelection (o :: os) (HumanResponse.intVal i) = false := by
        simp only [validSelection, Bool.and_eq_false_iff, decide_eq_false_iff_not]
        omega
      have h' : ¬ (1 ≤ i ∧ i ≤ (os.length : Int) + 1) := by simpa using h
      simp [process_human_response, hopts, h', hv]
  | strVal s =>
    by_cases h : s = o ∨ s ∈ os
    · have hd : (decide (s = o) || decide (s ∈ os)) = true := by
        rcases h with h | h <;> simp [h]
      simp [process_human_response, hopts, validSelection, h, hd]
    · have hd : (decide (s = o) || decide (s ∈ os)) = false := by
        push_neg at h
        simp [h.1, h.2]
      simp [process_human_response, hopts, validSelection, h, hd]
  | other =>
    simp [process_human_response, hopts, validSelection]

/-- Witness for C6 (amended): a valid 1-based index selects the matching
option and the request ends resolved. -/
theorem C6_resolve_response_amended_witness :
    ((process_human_response c6DemoReq (HumanResponse.intVal 2)).2.success =
      validSelection ["yes", "no"] (HumanResponse.intVal 2)) ∧
    ((process_human_response c6DemoReq (HumanResponse.intVal 2)).1.resolved = true) ∧
    ((process_human_response c6DemoReq (HumanResponse.intVal 2)).2.selected_option =
      ["yes", "no"].get? 1) :=
  ⟨(C6_resolve_response_amended c6DemoReq "yes" ["no"] (HumanResponse.intVal 2) rfl).1,
   (C6_resolve_response_amended c6DemoReq "yes" ["no"] (HumanResponse.intVal 2) rfl).2.2.1,
   (C6_resolve_response_amended c6DemoReq "yes" ["no"] (HumanResponse.intVal 2) rfl).2.2.2.2.1
     2 rfl (by decide)⟩

/-- C5. A task whose description contains a destructive keyword, with
no synchronous human-response callback configured, is marked
WaitingForHuman; the returned `ExecutionResult` is failed with
`execution_time = 0`; the created request is unresolved; and no
tool-invocation attempt is made (the Tool Gateway's `execute_tool` is
never reached). -/
theorem C5_escalation_gating (llm : Bool) (cbResp : HumanResponse)
    (run : Nat → ToolOutcome) (k : Nat) (goal : Goal) (reqId : Nat)
    (t : Task) (hdest : isDestructive t = true) :
    ((executeTaskWithChecks llm false cbResp run k goal reqId t).task.status =
      TaskStatus.waitingForHuman) ∧
    ((executeTaskWithChecks llm false cbResp run k goal reqId t).result =
      { task_id := t.id, success := false, error := some "Waiting for human input", execution_time := 0 }) ∧
    ((executeTaskWithChecks llm false cbResp run k goal reqId t).invocations = 0) ∧
    ((executeTaskWithChecks llm false cbResp run k goal reqId t).request =
      some (create_input_request reqId goal (some t) escalationReason)) ∧
    ((create_input_request reqId goal (some t) escalationReason).resolved = false) := by
  have hesc : shouldEscalate llm t = true := by
    simp [shouldEscalate, hdest]
  simp [executeTaskWithChecks, hesc, create_input_request]

/-- Witness for C5 at the spec's own example task description. -/
theorem C5_escalation_gating_witness :
    ((executeTaskWithChecks false false HumanResponse.other
        (fun _ => { success := true }) 0 { id := "g", description := "goal" } 0
        { id := "t1", description := "delete the config file" }).task.status =
      TaskStatus.waitingForHuman) ∧
    ((executeTaskWithChecks false false HumanResponse.other
        (fun _ => { success := true }) 0 { id := "g", description := "goal" } 0
        { id := "t1", description := "delete the config file" }).invocations = 0) :=
  ⟨(C5_escalation_gating false HumanResponse.other (fun _ => { success := true })
      0 { id := "g", description := "goal" } 0
      { id := "t1", description := "delete the config file" } (by decide)).1,
   (C5_escalation_gating false HumanResponse.other (fun _ => { success := true })
      0 { id := "g", description := "goal" } 0
      { id := "t1", description := "delete the config file" } (by decide)).2.2.1⟩

/-- Helper: `_infer_tool` only ever returns one of four nonempty tool names. -/
theorem inferTool_ne_empty (d : String) (nm : String)
    (h : inferTool d = some nm) : nm ≠ "" := by
  unfold inferTool at h
  split_ifs at h
  all_goals (injection h with h; subst h; decide)

/-- The tool name resolved by `execute_task` is never the empty string
(an empty configured tool is falsy and triggers inference). -/
theorem toolOf_ne_empty (t : Task) (nm : String) (h : toolOf t = some nm) :
    nm ≠ "" := by
  unfold toolOf at h
  rcases ht : t.tool with _ | s <;> simp only [ht] at h
  · exact inferTool_ne_empty _ _ h
  · by_cases hs : s = ""
    · rw [if_pos hs] at h; exact inferTool_ne_empty _ _ h
    · rw [if_neg hs] at h
      cases h; exact hs

/-- Retry unrolling for an always-failing tool: starting from any retry
count not above the budget, `execute_task` performs one attempt per
remaining budget unit plus one, leaves the task Failed, and leaves
`retry_count` at `max_retries`. -/
theorem executeTask_alwaysFail (run : Nat → ToolOutcome)
    (hfail : ∀ n, (run n).success = false) :
    ∀ (fuel k : Nat) (t : Task), t.max_retries - t.retry_count = fuel →
      t.retry_count ≤ t.max_retries → ∀ nm, toolOf t = some nm →
      (executeTask run k t).invocations = fuel + 1 ∧
      (executeTask run k t).task.status = TaskStatus.failed ∧
      (executeTask run k t).task.retry_count = t.max_retries := by
  intro fuel
  induction fuel with
  | zero =>
    intro k t hfuel hle nm htool
    have heq : t.retry_count = t.max_retries := by omega
    rw [executeTask]
    simp only [htool, hfail k, Bool.false_eq_true, if_false]
    have hlt : ¬ t.retry_count < t.max_retries := by omega
    simp [hlt, heq]
  | succ f ih =>
    intro k t hfuel hle nm htool
    have hlt : t.retry_count < t.max_retries := by omega
    have hne : nm ≠ "" := toolOf_ne_empty t nm htool
    have h2tool : toolOf { t with status := TaskStatus.inProgress, tool := some nm, retry_count := t.retry_count + 1 } = some nm := by
      show (if nm = "" then inferTool t.description else some nm) = some nm
      rw [if_neg hne]
    have h2 := ih (k + 1)
      { t with status := TaskStatus.inProgress, tool := some nm, retry_count := t.retry_count + 1 }
      (show t.max_retries - (t.retry_count + 1) = f by omega)
      (show t.retry_count + 1 ≤ t.max_retries by omega) nm h2tool
    rw [executeTask]
    simp only [htool, hfail k, Bool.false_eq_true, if_false, hlt, if_true]
    exact ⟨by simp [h2.1], by simpa using h2.2.1, by simpa using h2.2.2⟩

/-- C1. For a task whose tool invocation always fails, `execute_task`
performs exactly `max_retries + 1` tool-invocation attempts starting from
`retry_count = 0` (incrementing `retry_count` before each retry) and
leaves the task Failed with `retry_count = max_retries`. -/
theorem C1_retry_bound (run : Nat → ToolOutcome) (k : Nat) (t : Task)
    (nm : String) (hfail : ∀ n, (run n).success = false)
    (hrc : t.retry_count = 0) (htool : toolOf t = some nm) :
    (executeTask run k t).invocations = t.max_retries + 1 ∧
    (executeTask run k t).task.status = TaskStatus.failed ∧
    (executeTask run k t).task.retry_count = t.max_retries := by
  have h := executeTask_alwaysFail run hfail (t.max_retries - t.retry_count) k t
    rfl (by omega) nm htool
  rw [hrc] at h
  simpa using h

/-- Witness for C1: a concrete task with the default `max_retries = 3` and
an always-failing tool performs 4 attempts and ends Failed with
`retry_count = 3`. -/
theorem C1_retry_bound_witness :
    ((executeTask (fun _ => { success := false, error := some "boom" }) 0
        { id := "t1", description := "x", tool := some "shell" }).invocations = 3 + 1) ∧
    ((executeTask (fun _ => { success := false, error := some "boom" }) 0
        { id := "t1", description := "x", tool := some "shell" }).task.status =
      TaskStatus.failed) ∧
    ((executeTask (fun _ => { success := false, error := some "boom" }) 0
        { id := "t1", description := "x", tool := some "shell" }).task.retry_count = 3) :=
  C1_retry_bound (fun _ => { success := false, error := some "boom" }) 0
    { id := "t1", description := "x", tool := some "shell" } "shell"
    (fun _ => rfl) rfl (by decide)

/-- The descending key comparison is transitive. -/
theorem descLE_trans : ∀ a b c : LearnedPattern,
    descLE a b = true → descLE b c = true → descLE a c = true := by
  intro a b c hab hbc
  simp only [descLE, decide_eq_true_eq] at hab hbc ⊢
  rcases hab with h | ⟨e, u⟩ <;> rcases hbc with h' | ⟨e', u'⟩
  · exact Or.inl (lt_trans h' h)
  · exact Or.inl (by rwa [e'])
  · exact Or.inl (by rwa [← e])
  · exact Or.inr ⟨by rw [e', e], Nat.le_trans u' u⟩

/-- The descending key comparison is total. -/
theorem descLE_total : ∀ a b : LearnedPattern,
    (descLE a b || descLE b a) = true := by
  intro a b
  simp only [descLE, Bool.or_eq_true, decide_eq_true_eq]
  rcases lt_trichotomy a.confidence b.confidence with h | h | h
  · exact Or.inr (Or.inl h)
  · rcases Nat.le_total b.usage_count a.usage_count with hu | hu
    · exact Or.inl (Or.inr ⟨h.symm, hu⟩)
    · exact Or.inr (Or.inr ⟨h, hu⟩)
  · exact Or.inl (Or.inl h)

/-- Inserting into a descending-sorted list splits exactly at the claimed
point: `a` passes every element it must not precede and stops in front of
the first element it may precede. -/
theorem specInsertDesc_append (a : LearnedPattern) :
    ∀ (l₁ l₂ : List LearnedPattern), (∀ b ∈ l₁, descLE a b = false) →
      (∀ c l', l₂ = c :: l' → descLE a c = true) →
      specInsertDesc a (l₁ ++ l₂) = l₁ ++ a :: l₂
  | [], l₂, _, h2 => by
    cases l₂ with
    | nil => rfl
    | cons c l' => simp [specInsertDesc, h2 c l' rfl]
  | b :: l₁, l₂, h1, h2 => by
    have hb : descLE a b = false := h1 b (List.mem_cons_self b l₁)
    simp only [List.cons_append, specInsertDesc, hb, Bool.false_eq_true, if_false]
    show b :: specInsertDesc a (l₁ ++ l₂) = b :: (l₁ ++ a :: l₂)
    rw [specInsertDesc_append a l₁ l₂ (fun x hx => h1 x (List.mem_cons_of_mem b hx)) h2]

/-- Python's stable `list.sort` (Timsort) agrees with the spec-side stable
descending insertion sort: both are the unique stable sort of `descLE`. -/
theorem mergeSort_eq_specSortDesc :
    ∀ l : List LearnedPattern, l.mergeSort descLE = specSortDesc l
  | [] => by simp [specSortDesc]
  | a :: l => by
    obtain ⟨l₁, l₂, hcons, hrest, hl₁⟩ :=
      List.mergeSort_cons descLE_trans descLE_total a l
    have hsorted := List.sorted_mergeSort descLE_trans descLE_total (a :: l)
    rw [hcons] at hsorted
    have hhead : ∀ c l', l₂ = c :: l' → descLE a c = true := by
      intro c l' he
      subst he
      have hp := (List.pairwise_append.mp hsorted).2.1
      exact (List.pairwise_cons.mp hp).1 c (List.mem_cons_self c l')
    have h1 : ∀ b ∈ l₁, descLE a b = false := by
      intro b hb
      simpa using hl₁ b hb
    rw [hcons, specSortDesc, ← mergeSort_eq_specSortDesc l, hrest,
      specInsertDesc_append a l₁ l₂ h1 hhead]

/-- The result component of `get_patterns` is the stable descending sort
of the spec-side filtered list, whenever the type filter is not the
falsy-but-present empty string. No assumption on the context filter is
needed: for an empty context filter the source skips the filter while the
spec-side containment is vacuously true of every pattern, so the two
coincide. -/
theorem get_patterns_fst (store : List LearnedPattern) (pt : Option String)
    (cf : Option (List (String × String))) (hpt : pt ≠ some "") :
    (get_patterns store pt cf).1 = (specFilter store pt cf).mergeSort descLE := by
  rcases pt with _ | t
  · rcases cf with _ | c
    · simp [get_patterns, specFilter, typeFalsy, ctxFalsy]
    · cases c with
      | nil =>
        simp [get_patterns, specFilter, typeFalsy, ctxFalsy, matchesContext]
      | cons kv cs =>
        have hce : (kv :: cs).isEmpty = false := rfl
        simp [get_patterns, specFilter, typeFalsy, ctxFalsy, hce]
  · have ht : t ≠ "" := fun he => hpt (by rw [he])
    have hte : (t == "") = false := by simpa using ht
    rcases cf with _ | c
    · simp [get_patterns, specFilter, typeFalsy, ctxFalsy, hte]
    · cases c with
      | nil =>
        simp [get_patterns, specFilter, typeFalsy, ctxFalsy, hte, matchesContext]
      | cons kv cs =>
        have hce : (kv :: cs).isEmpty = false := rfl
        simp only [get_patterns, typeFalsy, ctxFalsy, hte, hce, Bool.false_eq_true,
          if_false, List.filter_filter, specFilter, Option.getD_some]
        congr 1
        exact List.filter_congr (fun p _ => by rw [Bool.and_comm])

/-- C8 counterexample. With the type filter given as the empty string,
the claim demands that only patterns whose `pattern_type` equals `""` be
returned (none here); but Python's `if pattern_type:` treats `""` as
absent, so the stored pattern of a different type is returned anyway. -/
theorem C8_get_patterns_counterexample :
    (get_patterns [c8Pattern] (some "") none).1 = [c8Pattern] ∧
    c8Pattern.pattern_type ≠ "" := by
  constructor
  · simp [get_patterns, typeFalsy, ctxFalsy, List.mergeSort]
  · decide

/-- C8 (amended). For every stored pattern list, every context-filter
argument, and every type-filter argument other than the present-but-empty
string (which Python's `if pattern_type:` treats as absent — the sole
deviation from the claim; an empty context filter is also skipped by the
source, but there the claim's vacuous containment selects every pattern
anyway, so code and claim coincide): `get_patterns` returns exactly the
patterns passing the type and context filters, stably sorted descending
by `(confidence, usage_count)` with ties in original order — it equals
the spec-side stable descending insertion sort of the spec-side filtered
list, is pairwise descending, and is a permutation of the filtered list —
and a second call with the same arguments and no intervening writes
returns the identical list (even though a filterless call re-sorts the
backing store in place). -/
theorem C8_get_patterns_amended (store : List LearnedPattern)
    (pt : Option String) (cf : Option (List (String × String)))
    (hpt : pt ≠ some "") :
    ((get_patterns store pt cf).1 = specSortDesc (specFilter store pt cf)) ∧
    ((get_patterns store pt cf).1.Pairwise (fun a b => descLE a b = true)) ∧
    ((get_patterns store pt cf).1.Perm (specFilter store pt cf)) ∧
    ((get_patterns (get_patterns store pt cf).2 pt cf).1 =
      (get_patterns store pt cf).1) := by
  have hfst := get_patterns_fst store pt cf hpt
  refine ⟨?_, ?_, ?_, ?_⟩
  · rw [hfst, mergeSort_eq_specSortDesc]
  · rw [hfst]
    exact List.sorted_mergeSort descLE_trans descLE_total _
  · rw [hfst]
    exact List.mergeSort_perm _ _
  · by_cases hm : (typeFalsy pt && ctxFalsy cf) = true
    · obtain ⟨h1, h2⟩ := Bool.and_eq_true_iff.mp hm
      have hpt0 : pt = none := by
        rcases pt with _ | t
        · rfl
        · simp only [typeFalsy, beq_iff_eq] at h1
          exact absurd (by rw [h1]) hpt
      subst hpt0
      have hnn : ∀ s : List LearnedPattern,
          get_patterns s none cf = (s.mergeSort descLE, s.mergeSort descLE) := by
        intro s
        rcases cf with _ | c
        · simp [get_patterns, typeFalsy, ctxFalsy]
        · simp only [ctxFalsy, List.isEmpty_iff] at h2
          subst h2
          simp [get_patterns, typeFalsy, ctxFalsy]
      rw [hnn, hnn]
      exact List.mergeSort_of_sorted
        (List.sorted_mergeSort descLE_trans descLE_total store)
    · have hm' : (typeFalsy pt && ctxFalsy cf) = false := by
        simpa using hm
      have h2 : (get_patterns store pt cf).2 = store := by
        simp [get_patterns, hm']
      rw [h2]

/-- Witness for C8 (amended): a store with a tied pair sorts the highest
confidence first and keeps the tie in insertion order. -/
theorem C8_get_patterns_amended_witness :
    ((get_patterns [c8P1, c8P2, c8P3] (some "a") none).1 =
      specSortDesc (specFilter [c8P1, c8P2, c8P3] (some "a") none)) ∧
    ((get_patterns [c8P1, c8P2, c8P3] (some "a") none).1 = [c8P3, c8P1, c8P2]) := by
  have h := C8_get_patterns_amended [c8P1, c8P2, c8P3] (some "a") none
    (by decide)
  refine ⟨h.1, ?_⟩
  rw [h.1]
  decide

/-- Helper: `process_human_response` never changes the request's task id. -/
theorem process_human_response_task_id (req : HumanInputRequest)
    (resp : HumanResponse) :
    (process_human_response req resp).1.task_id = req.task_id := by
  cases hopt : req.options with
  | none => simp [process_human_response, hopt]
  | some opts =>
    cases opts with
    | nil => simp [process_human_response, hopt]
    | cons o os =>
      cases resp <;> simp only [process_human_response, hopt] <;>
        split_ifs <;> rfl

/-- Any request created by `_execute_task_with_checks` carries the
dispatched task's id. -/
theorem checked_request_cases (llm hasCb : Bool) (cbResp : HumanResponse)
    (run : Nat → ToolOutcome) (k : Nat) (goal : Goal) (rid : Nat) (t : Task) :
    (executeTaskWithChecks llm hasCb cbResp run k goal rid t).request = none ∨
    ∃ r, (executeTaskWithChecks llm hasCb cbResp run k goal rid t).request = some r ∧
      r.task_id = some t.id := by
  by_cases hesc : shouldEscalate llm t = true
  · right
    by_cases hcb : hasCb = true
    · by_cases hs : (process_human_response
          (create_input_request rid goal (some t) escalationReason) cbResp).2.success = true
      · refine ⟨(process_human_response
            (create_input_request rid goal (some t) escalationReason) cbResp).1,
          by simp [executeTaskWithChecks, hesc, hcb, hs], ?_⟩
        rw [process_human_response_task_id]
        rfl
      · refine ⟨(process_human_response
            (create_input_request rid goal (some t) escalationReason) cbResp).1,
          by simp [executeTaskWithChecks, hesc, hcb, hs], ?_⟩
        rw [process_human_response_task_id]
        rfl
    · have hcb' : hasCb = false := by simpa using hcb
      exact ⟨create_input_request rid goal (some t) escalationReason,
        by simp [executeTaskWithChecks, hesc, hcb'], rfl⟩
  · left
    simp [executeTaskWithChecks, hesc]

/-- How one dispatch changes the open-request count and the executed
set: at most one request, carrying the dispatched task's id, is added,
and the dispatched id is appended to the executed set. -/
theorem reqCount_dispatchTask (llm hasCb : Bool) (cbResp : HumanResponse)
    (run : Nat → ToolOutcome) (goal : Goal) (aid : String) (t : Task)
    (st : PlanState) (tid : String) :
    (reqCount (dispatchTask llm hasCb cbResp run goal aid t st) tid ≤
      reqCount st tid + (if t.id = tid then 1 else 0)) ∧
    (t.id ≠ tid →
      reqCount (dispatchTask llm hasCb cbResp run goal aid t st) tid =
        reqCount st tid) ∧
    ((dispatchTask llm hasCb cbResp run goal aid t st).executed =
      st.executed ++ [aid]) := by
  have hcase := checked_request_cases llm hasCb cbResp run st.attempt goal st.nextId t
  refine ⟨?_, ?_, rfl⟩
  · rcases hcase with h | ⟨r, h, hid⟩
    · simp [dispatchTask, reqCount, h, List.countP_append]
    · simp only [dispatchTask, reqCount, h, Option.toList_some,
        List.countP_append, List.countP_cons, List.countP_nil]
      by_cases heq : t.id = tid
      · rw [if_pos heq]
        split <;> omega
      · rw [if_neg heq]
        have h1 : (r.task_id == some tid) = false := by
          rw [hid]
          exact beq_eq_false_iff_ne.mpr (fun hh => heq (Option.some.inj hh))
        simp [h1]
  · intro hne
    rcases hcase with h | ⟨r, h, hid⟩
    · simp [dispatchTask, reqCount, h, List.countP_append]
    · have h1 : (r.task_id == some tid) = false := by
        rw [hid]
        exact beq_eq_false_iff_ne.mpr (fun hh => hne (Option.some.inj hh))
      simp [dispatchTask, reqCount, h, List.countP_append, List.countP_cons, h1]

/-- The last task stored under a task-map key has that key as its id. -/
theorem taskMap_id (plan : ExecutionPlan) (a : String) (t : Task)
    (h : taskMap plan a = some t) : t.id = a := by
  unfold taskMap at h
  have hm := List.mem_of_getLast?_eq_some h
  have hp := (List.mem_filter.mp hm).2
  simpa using hp

/-- The parallel-group pass preserves the open-request invariant when the
flattened group entries contain no duplicate id. -/
theorem groupEntries_inv (llm hasCb : Bool) (cbResp : HumanResponse)
    (run : Nat → ToolOutcome) (goal : Goal) (plan : ExecutionPlan) :
    ∀ (tids : List String) (st : PlanState), tids.Nodup → GroupInv st tids →
      GroupInv (tids.foldl (groupEntryStep llm hasCb cbResp run goal plan) st) [] := by
  intro tids
  induction tids with
  | nil => intro st _ hinv; exact hinv
  | cons a l ih =>
    intro st hnd hinv
    rw [List.foldl_cons]
    refine ih _ (List.Nodup.of_cons hnd) ?_
    rcases hmap : taskMap plan a with _ | t
    · simp only [groupEntryStep, hmap]
      intro tid
      obtain ⟨h1, h2⟩ := hinv tid
      exact ⟨h1, fun h => ⟨(h2 h).1, fun hl => (h2 h).2 (List.mem_cons_of_mem a hl)⟩⟩
    · by_cases hcan : canExecuteTask t st.executed = true
      · simp only [groupEntryStep, hmap, hcan, if_true]
        have htid : t.id = a := taskMap_id plan a t hmap
        intro tid
        obtain ⟨hle, himp⟩ := hinv tid
        obtain ⟨hd_le, hd_ne, hd_ex⟩ :=
          reqCount_dispatchTask llm hasCb cbResp run goal a t st tid
        by_cases heq : tid = a
        · subst heq
          have hz : reqCount st tid = 0 := by
            by_contra hnz
            exact (himp (by omega)).2 (List.mem_cons_self tid l)
          rw [if_pos htid] at hd_le
          refine ⟨by omega, fun _ => ⟨?_, ?_⟩⟩
          · rw [hd_ex]
            exact List.mem_append_right _ (List.mem_singleton.mpr rfl)
          · exact (List.nodup_cons.mp hnd).1
        · have hne : t.id ≠ tid := fun hh => heq (hh.symm.trans htid)
          have heqc := hd_ne hne
          rw [heqc]
          refine ⟨hle, fun h1 => ?_⟩
          obtain ⟨hmem, hnotin⟩ := himp h1
          exact ⟨by rw [hd_ex]; exact List.mem_append_left _ hmem,
            fun hl => hnotin (List.mem_cons_of_mem a hl)⟩
      · simp only [groupEntryStep, hmap, hcan, if_false]
        intro tid
        obtain ⟨h1, h2⟩ := hinv tid
        exact ⟨h1, fun h => ⟨(h2 h).1, fun hl => (h2 h).2 (List.mem_cons_of_mem a hl)⟩⟩

/-- The sequential pass preserves the open-request invariant: it only
dispatches tasks not yet in the executed set. -/
theorem seqSteps_inv (llm hasCb : Bool) (cbResp : HumanResponse)
    (run : Nat → ToolOutcome) (goal : Goal) :
    ∀ (ts : List Task) (st : PlanState), SeqInv st →
      SeqInv (ts.foldl (seqTaskStep llm hasCb cbResp run goal) st) := by
  intro ts
  induction ts with
  | nil => intro st h; exact h
  | cons t ts ih =>
    intro st hinv
    rw [List.foldl_cons]
    refine ih _ ?_
    by_cases hc : st.executed.contains t.id = true
    · have hmem : t.id ∈ st.executed := by simpa using hc
      simpa [seqTaskStep, hmem] using hinv
    · have hmem' : t.id ∉ st.executed := by simpa using hc
      have hc' : st.executed.contains t.id = false := by simpa using hc
      by_cases hcan : canExecuteTask t st.executed = true
      · simp only [seqTaskStep, hc', Bool.false_eq_true, if_false, hcan, if_true]
        intro tid
        obtain ⟨hle, himp⟩ := hinv tid
        obtain ⟨hd_le, hd_ne, hd_ex⟩ :=
          reqCount_dispatchTask llm hasCb cbResp run goal t.id t st tid
        by_cases heq : tid = t.id
        · have hz : reqCount st tid = 0 := by
            by_contra hnz
            have hmem := himp (by omega)
            rw [heq] at hmem
            exact hmem' hmem
          rw [if_pos heq.symm] at hd_le
          refine ⟨by omega, fun _ => ?_⟩
          rw [hd_ex, heq]
          exact List.mem_append_right _ (List.mem_singleton.mpr rfl)
        · have hne : t.id ≠ tid := fun hh => heq hh.symm
          rw [hd_ne hne]
          refine ⟨hle, fun h1 => ?_⟩
          rw [hd_ex]
          exact List.mem_append_left _ (himp h1)
      · simpa [seqTaskStep, hc', hcan, hmem'] using hinv

/-- C9 counterexample. The claim asserts at most one open request per
task id in every reachable state; but the parallel-group pass never checks
the executed set, so a plan listing the same (destructive) task in two
parallel groups — reachable, since the planner only filters unknown ids
out of the LLM-supplied groups — dispatches it twice and creates two
unresolved requests for the same task id. -/
theorem C9_single_open_request_counterexample :
    reqCount (executePlanModel false false HumanResponse.other
      (fun _ => { success := true }) c9Goal c9Plan) "x" = 2 := by
  decide

/-- C9 (amended). Whenever no task id occurs twice among the plan's
flattened parallel-group entries (the spec's own `ExecutionPlan`
invariant), every task id has at most one open (unresolved)
`HumanInputRequest` after `_execute_plan` runs — and hence in every
intermediate state, the request list being append-only. -/
theorem C9_single_open_request_amended (llm hasCb : Bool)
    (cbResp : HumanResponse) (run : Nat → ToolOutcome) (goal : Goal)
    (plan : ExecutionPlan) (hnd : plan.parallel_groups.flatten.Nodup)
    (tid : String) :
    reqCount (executePlanModel llm hasCb cbResp run goal plan) tid ≤ 1 := by
  have hflat : (plan.parallel_groups.foldl
      (fun st g => g.foldl (groupEntryStep llm hasCb cbResp run goal plan) st)
      ({} : PlanState)) =
      plan.parallel_groups.flatten.foldl
        (groupEntryStep llm hasCb cbResp run goal plan) ({} : PlanState) :=
    (List.foldl_flatten _ _ _).symm
  have hinit : GroupInv ({} : PlanState) plan.parallel_groups.flatten := by
    intro tid2
    refine ⟨by simp [reqCount], fun h => absurd h (by simp [reqCount])⟩
  have hg := groupEntries_inv llm hasCb cbResp run goal plan
    plan.parallel_groups.flatten ({} : PlanState) hnd hinit
  have hseqinv : SeqInv (plan.parallel_groups.flatten.foldl
      (groupEntryStep llm hasCb cbResp run goal plan) ({} : PlanState)) := by
    intro tid2
    obtain ⟨h1, h2⟩ := hg tid2
    exact ⟨h1, fun h => (h2 h).1⟩
  have hs := seqSteps_inv llm hasCb cbResp run goal plan.tasks _ hseqinv
  have hunfold : executePlanModel llm hasCb cbResp run goal plan =
      plan.tasks.foldl (seqTaskStep llm hasCb cbResp run goal)
        (plan.parallel_groups.flatten.foldl
          (groupEntryStep llm hasCb cbResp run goal plan) ({} : PlanState)) := by
    rw [executePlanModel, hflat]
  rw [hunfold]
  exact (hs tid).1

/-- Witness for C9 (amended): the well-formed one-group plan yields at
most one open request for the task. -/
theorem C9_single_open_request_witness :
    reqCount (executePlanModel false false HumanResponse.other
      (fun _ => { success := true }) c9Goal c9PlanOk) "x" ≤ 1 :=
  C9_single_open_request_amended false false HumanResponse.other
    (fun _ => { success := true }) c9Goal c9PlanOk (by decide) "x"

end TaskAutomation
